import Mathlib

/-!
Verification of the filesystem_write MCP server
(src/_mcp_servers/filesystem_write-mcp/filesystem_write-mcp.py).

The development shallowly embeds the two non-trivial parts of that file:

* the virtual-path sandbox (`set_allowed_dirs`, `validate_virtual_path`),
  with the filesystem (symlink resolution, existence) left abstract as a
  structure `FS`, and the pure `os.path` string functions (`normpath`,
  `join`, `abspath`, `dirname`, `expanduser`) translated from CPython
  posixpath semantics; and

* the segment patch engine (`_apply_simplified_patch`) and the on-disk
  effect of the `apply_diff` tool, translated line by line.

All strings are manipulated through their character lists so that every
definition reduces inside the kernel.
-/

namespace GptJs

/-- Boolean equality of strings through their character lists. -/
def strEq (a b : String) : Bool := a.data == b.data

/-- Boolean equality of string lists (Python list equality of str lists). -/
def strListEq : List String → List String → Bool
  | [], [] => true
  | a :: as, b :: bs => strEq a b && strListEq as bs
  | _, _ => false

/-- Whether `p` is a prefix of the character list `cs` (Python str.startswith). -/
def isPre (p : String) (cs : List Char) : Bool := p.data.isPrefixOf cs

/-- Python `s.startswith(p)`. -/
def pyStartsWith (s p : String) : Bool := isPre p s.data

/-- Python whitespace as stripped by `str.strip()`: the full CPython
set, code points 0x09-0x0D, 0x1C-0x20, 0x85, 0xA0, 0x1680,
0x2000-0x200A, 0x2028, 0x2029, 0x202F, 0x205F and 0x3000. -/
def isPySpace (c : Char) : Bool :=
  let n := c.toNat
  (9 ≤ n && n ≤ 13) || (28 ≤ n && n ≤ 32) || n == 0x85 || n == 0xa0 ||
  n == 0x1680 || (0x2000 ≤ n && n ≤ 0x200a) || n == 0x2028 || n == 0x2029 ||
  n == 0x202f || n == 0x205f || n == 0x3000

/-- Python `s.strip()`: drop leading and trailing whitespace. -/
def pyStrip (s : String) : String :=
  String.mk (((s.data.dropWhile isPySpace).reverse.dropWhile isPySpace).reverse)

/-- Split a character list on a single separator character
(Python `str.split(sep)` with a one-character separator). -/
def splitOnChar (c : Char) : List Char → List (List Char)
  | [] => [[]]
  | x :: xs =>
    let r := splitOnChar c xs
    if x == c then [] :: r
    else
      match r with
      | [] => [[x]]
      | h :: t => (x :: h) :: t

/-- Python `s.split(sep)` for a one-character separator, on strings. -/
def pySplit (c : Char) (s : String) : List String :=
  (splitOnChar c s.data).map String.mk

/-- Line-break characters recognized by Python `str.splitlines`. -/
def isLineBreak (c : Char) : Bool :=
  c == '\n' || c == '\r' || c == '\x0b' || c == '\x0c' ||
  c == '\x1c' || c == '\x1d' || c == '\x1e' || c == '\x85' ||
  c == '\u2028' || c == '\u2029'

/-- Worker for `splitlines`: `acc` holds the current line reversed.
A `"\r\n"` pair counts as a single break; a trailing break does not
open a final empty line. -/
def splitlinesAux : List Char → List Char → List String
  | [], acc => if acc.isEmpty then [] else [String.mk acc.reverse]
  | '\r' :: '\n' :: rest, acc => String.mk acc.reverse :: splitlinesAux rest []
  | c :: rest, acc =>
    if isLineBreak c then String.mk acc.reverse :: splitlinesAux rest []
    else splitlinesAux rest (c :: acc)

/-- Python `str.splitlines()`. -/
def splitlines (s : String) : List String := splitlinesAux s.data []

/-- Python `"\n".join(lines)`. -/
def joinNL : List String → String
  | [] => ""
  | [s] => s
  | s :: rest => s ++ "\n" ++ joinNL rest

/-! Section: the `os.path` (posixpath) string functions

Translated from CPython `posixpath`; the server runs with POSIX separators
(`os.sep = "/"`), as the spec assumes. -/

/-- The character list starts with `/`. -/
def startsWithSlash (s : String) : Bool := isPre "/" s.data

/-- The character list ends with `/`. -/
def endsWithSlash (s : String) : Bool :=
  match s.data.getLast? with
  | some c => c == '/'
  | none => false

/-- CPython `posixpath.join(a, b)` for two arguments. -/
def pjoin (a b : String) : String :=
  if startsWithSlash b then b
  else if strEq a "" || endsWithSlash a then a ++ b
  else a ++ "/" ++ b

/-- One step of the `normpath` component scan: Python keeps a component
unless it is `..` and can cancel against the accumulated components. -/
def normpathStep (initialSlashes : Nat) (acc : List (List Char)) (comp : List Char) : List (List Char) :=
  if comp == [] || comp == [ '.' ] then acc
  else if !(comp == [ '.', '.' ]) || (decide (initialSlashes = 0) && acc.isEmpty)
       || (!acc.isEmpty && acc.getLast? == some [ '.', '.' ]) then acc ++ [comp]
  else if !acc.isEmpty then acc.dropLast
  else acc

/-- CPython `posixpath.normpath`: purely syntactic collapse of `//`, `.`
and `..`, preserving a leading double slash. -/
def normpath (p : String) : String :=
  if strEq p "" then "."
  else
    let cs := p.data
    let initialSlashes : Nat :=
      if isPre "/" cs then (if isPre "//" cs && !(isPre "///" cs) then 2 else 1) else 0
    let comps := splitOnChar '/' cs
    let newComps := comps.foldl (normpathStep initialSlashes) []
    let joined := List.intercalate [ '/' ] newComps
    let result := List.replicate initialSlashes '/' ++ joined
    if result.isEmpty then "." else String.mk result

/-- CPython `posixpath.dirname`: everything up to the last `/`, with
trailing slashes stripped unless the head is all slashes. -/
def dirname (p : String) : String :=
  let head := (p.data.reverse.dropWhile (fun c => !(c == '/'))).reverse
  let head :=
    if !head.isEmpty && !(head.all (fun c => c == '/')) then
      (head.reverse.dropWhile (fun c => c == '/')).reverse
    else head
  String.mk head

/-- CPython `posixpath.expanduser` with the environment passed in
explicitly: `home` is the `HOME` variable and `users` the password
database (`pwd.getpwnam`, user name to home directory). A bare `~`
expands to `home`, a `~user` form expands to the home directory of
`user` when the lookup succeeds and is returned unchanged on a
`KeyError`; the selected home directory is stripped of trailing
slashes before the rest of the path is appended. -/
def expanduser (home : String) (users : String → Option String) (p : String) : String :=
  if !(pyStartsWith p "~") then p
  else
    let rest := p.data.drop 1
    let user := rest.takeWhile (fun c => !(c == '/'))
    let tail := rest.dropWhile (fun c => !(c == '/'))
    let uh : Option String := if user.isEmpty then some home else users (String.mk user)
    match uh with
    | none => p
    | some h =>
      let userhome := (h.data.reverse.dropWhile (fun c => c == '/')).reverse
      let result := userhome ++ tail
      if result.isEmpty then "/" else String.mk result

/-- CPython `posixpath.abspath` with the working directory passed in
explicitly: join onto `cwd` when relative, then `normpath`. -/
def abspath (cwd : String) (p : String) : String :=
  if startsWithSlash p then normpath p else normpath (pjoin cwd p)

/-! Section: the Python dict model

`_virtual_to_real` and `_real_to_virtual` are built by dict
comprehensions; a dict is modelled as an association list in insertion
order, where inserting an existing key updates the value in place. -/

/-- Insert into a Python dict: an existing key keeps its position and
gets the new value, a new key is appended. -/
def dictInsert (m : List (String × String)) (k v : String) : List (String × String) :=
  if m.any (fun p => strEq p.1 k) then
    m.map (fun p => if strEq p.1 k then (k, v) else p)
  else m ++ [(k, v)]

/-- Build a Python dict from a pair sequence (a dict comprehension). -/
def pythonDict (ps : List (String × String)) : List (String × String) :=
  ps.foldl (fun m p => dictInsert m p.1 p.2) []

/-- Python `m.get(k)` / `m[k]`: the value stored at `k`, if any. -/
def dictLookup (m : List (String × String)) (k : String) : Option String :=
  (m.find? (fun p => strEq p.1 k)).map (fun p => p.2)

/-! Section: DirectoryRegistry (`set_allowed_dirs`, lines 20-31) -/

/-- The three module-level mappings set up by `set_allowed_dirs`. -/
structure Registry where
  allowed_real_dirs : List String
  virtual_to_real : List (String × String)
  real_to_virtual : List (String × String)
deriving Repr, DecidableEq

/-- Python `chr(n)` as a one-character string, given by its character
list. Python `chr` is injective on its whole domain `[0, 0x110000)`,
surrogates included, but a Lean `Char` cannot hold a surrogate code
point; a surrogate is therefore encoded injectively as a two-character
escape (the replacement character followed by the surrogate shifted
into the private-use range), so the model keeps the one property of
`chr` the registry depends on — injectivity on its domain. -/
def pyChr (n : Nat) : List Char :=
  if n.isValidChar then [Char.ofNat n]
  else [ '\uFFFD', Char.ofNat (0xe000 + (n - 0xd800)) ]

/-- The virtual alias for the directory at position `i`:
`f"/data/{chr(97 + i)}"`. -/
def aliasFor (i : Nat) : String := "/data/" ++ String.mk (pyChr (97 + i))

/-- Embedding of `set_allowed_dirs(real_dirs)` (lines 26-31), with the
process home directory, the working directory and the password
database made explicit for `os.path.expanduser` / `os.path.abspath`. -/
def set_allowed_dirs (home cwd : String) (users : String → Option String)
    (real_dirs : List String) : Registry :=
  let dirs := real_dirs.map (fun d => abspath cwd (expanduser home users d))
  let v2r := pythonDict (dirs.enum.map (fun p => (aliasFor p.1, p.2)))
  let r2v := pythonDict (v2r.map (fun p => (p.2, p.1)))
  { allowed_real_dirs := dirs, virtual_to_real := v2r, real_to_virtual := r2v }

/-- An empty password database: every `~user` lookup fails. -/
def noUsers : String → Option String := fun _ => none

/-! Section: PathResolver (`validate_virtual_path`, lines 34-56) -/

/-- The live filesystem, abstract: `realpath` is `os.path.realpath`
as called at line 46 and `exists` is `os.path.exists`. The `none` case
of `realpath` models the `FileNotFoundError` that the except branch of
lines 50-56 catches; CPython `os.path.realpath` with its default
`strict=False` never raises that error, so for the real library
`realpath` is total (always `some`) and that branch is dead code — the
`none` case is kept only so the embedding covers every branch the
source text contains. -/
structure FS where
  realpath : String → Option String
  fileExists : String → Bool

/-- Errors raised by `validate_virtual_path`, named after the spec
taxonomy: `invalidPath` is the `CustomFileSystemError` of line 42,
`accessDenied` the `PermissionError` of lines 49/56, and
`parentNotFound` the `FileNotFoundError` raised at line 53 or
propagated from resolving the parent at line 51 (both are the same
Python exception class). -/
inductive PathError where
  | invalidPath
  | parentNotFound
  | accessDenied
deriving Repr, DecidableEq

/-- The alias-match test of line 37:
`virtual_path.startswith(virtual_dir + "/") or virtual_path == virtual_dir`. -/
def matchesAlias (vp vd : String) : Bool :=
  pyStartsWith vp (vd ++ "/") || strEq vp vd

/-- Lines 36-44 of `validate_virtual_path`: find the first registered
alias the virtual path falls under (else `CustomFileSystemError`),
splice the relative part onto the real directory, and normalize. -/
def toRealPath (reg : Registry) (cwd : String) (vp : String) : Except PathError String :=
  match reg.virtual_to_real.find? (fun p => matchesAlias vp p.1) with
  | none => .error .invalidPath
  | some (vd, rd) =>
    let relative := String.mk ((vp.data.drop vd.data.length).dropWhile (fun c => c == '/'))
    let real_path := if strEq relative "" then rd else pjoin rd relative
    .ok (normpath (abspath cwd real_path))

/-- Line 47 (and 54): the resolved path equals some allowed directory or
is a path-separator-delimited descendant of one. -/
def isWithinAllowed (dirs : List String) (p : String) : Bool :=
  dirs.any (fun d => pyStartsWith p (d ++ "/") || strEq p d)

/-- Lines 45-56 of `validate_virtual_path`: resolve symlinks on the
candidate; an existing candidate must itself resolve into an allowed
directory, a nonexistent one is admitted (unresolved) when its resolved
parent exists inside an allowed directory. -/
def checkRealPath (fs : FS) (allowed : List String) (real_path : String) : Except PathError String :=
  match fs.realpath real_path with
  | some resolved =>
    if isWithinAllowed allowed resolved then .ok resolved
    else .error .accessDenied
  | none =>
    match fs.realpath (dirname real_path) with
    | none => .error .parentNotFound
    | some real_parent =>
      if !(fs.fileExists real_parent) then .error .parentNotFound
      else if isWithinAllowed allowed real_parent then .ok real_path
      else .error .accessDenied

/-- Embedding of `validate_virtual_path(virtual_path)` (lines 34-56). -/
def validate_virtual_path (reg : Registry) (cwd : String) (fs : FS) (vp : String) : Except PathError String :=
  match toRealPath reg cwd vp with
  | .error e => .error e
  | .ok real_path => checkRealPath fs reg.allowed_real_dirs real_path

/-! Section: PatchEngine (`_apply_simplified_patch`, lines 183-263) -/

/-- One parsed patch segment (lines 224-228). -/
structure Segment where
  start_line_gte : Option Nat
  from_lines : List String
  to_lines : List String
deriving Repr, DecidableEq

/-- One ignored-hint warning (line 239); Python renders it as the
f-string
`Warning: segment {segment} (line ge {hint}) is not after previous segment end line. Ignoring.` -/
structure HintWarning where
  segment : Nat
  hint : Nat
deriving Repr, DecidableEq

/-- The two `ValueError`s of `_apply_simplified_patch`: line 197
(no `---` separator found) and line 252 (`Patch segment {i+1} could not
be applied`), carrying the 1-based segment number. -/
inductive PatchError where
  | formatError
  | applyError (segment : Nat)
deriving Repr, DecidableEq

/-- Leading run of decimal digits. -/
def digitsTaken (cs : List Char) : List Char := cs.takeWhile (fun c => c.isDigit)

/-- Numeric value of a decimal digit string (Python `int`). -/
def natOfDigits (cs : List Char) : Nat :=
  cs.foldl (fun n c => n * 10 + (c.toNat - 48)) 0

/-- Embedding of `re.search(r"line >= (\d+)", header)` (lines 208-210): the leftmost
position where the literal `line >= ` is followed by at least one digit
wins, and the digit run is maximal. Digits are ASCII here; the re
pattern `\d` would also accept other Unicode decimal digits. -/
def findHint : List Char → Option Nat
  | [] => none
  | c :: rest =>
    if isPre "line >= " (c :: rest) then
      let ds := digitsTaken ((c :: rest).drop 8)
      if ds.isEmpty then findHint rest else some (natOfDigits ds)
    else findHint rest

/-- The `line >= N` hint of a header line, if present. -/
def parseHint (header : String) : Option Nat := findHint header.data

/-- Lines 215-222: distribute segment body lines onto the from/to
sequences; `-` feeds only *from* (marker stripped), `+` only *to*
(marker stripped), anything else feeds both unchanged. -/
def parseBody : List String → List String × List String
  | [] => ([], [])
  | l :: rest =>
    let (f, t) := parseBody rest
    if pyStartsWith l "-" then (String.mk (l.data.drop 1) :: f, t)
    else if pyStartsWith l "+" then (f, String.mk (l.data.drop 1) :: t)
    else (l :: f, l :: t)

/-- Line 194: indices of the lines starting with `---`. -/
def segmentStartIndices (dl : List String) : List Nat :=
  (dl.enum.filter (fun p => pyStartsWith p.2 "---")).map (fun p => p.1)

/-- Lines 200-228: cut the diff lines at the header indices and parse
each slice into a `Segment`. -/
def segmentsFromIndices (dl : List String) : List Nat → List Segment
  | [] => []
  | s :: rest =>
    let e := match rest with
      | [] => dl.length
      | s2 :: _ => s2
    let header := (dl.drop s).headD ""
    let body := parseBody ((dl.drop (s + 1)).take (e - (s + 1)))
    { start_line_gte := parseHint header,
      from_lines := body.1, to_lines := body.2 } :: segmentsFromIndices dl rest

/-- Line 247: `new_lines[line_idx : line_idx + len(from_lines)] ==
from_lines`. -/
def sliceEq (ls pat : List String) (idx : Nat) : Bool :=
  strListEq ((ls.drop idx).take pat.length) pat

/-- Lines 246-249: first index at or after `start` where the window of
`pat.length` consecutive lines equals `pat`; the scan range is
`range(search_from, len(new_lines) - len(from_lines) + 1)`. -/
def findWindow (ls pat : List String) (start : Nat) : Option Nat :=
  (List.range' start (ls.length + 1 - pat.length - start)).find? (fun idx => sliceEq ls pat idx)

/-- Lines 231-257: apply the segments in order against the working line
list, threading the cursor (`current_search_start_line`), the collected
warnings and the 0-based segment counter `i`. -/
def applySegments : List Segment → List String → Nat → List HintWarning → Nat →
    Except PatchError (List String × Nat × List HintWarning)
  | [], ls, cursor, ws, _ => .ok (ls, cursor, ws)
  | seg :: rest, ls, cursor, ws, i =>
    let searchFrom := match seg.start_line_gte with
      | some n => if n ≥ cursor + 1 then n - 1 else cursor
      | none => cursor
    let ws := match seg.start_line_gte with
      | some n => if n ≥ cursor + 1 then ws else ws ++ [⟨i + 1, n⟩]
      | none => ws
    let foundAt : Option Nat :=
      if seg.from_lines.isEmpty then some searchFrom
      else findWindow ls seg.from_lines searchFrom
    match foundAt with
    | none => .error (.applyError (i + 1))
    | some m =>
      applySegments rest (ls.take m ++ seg.to_lines ++ ls.drop (m + seg.from_lines.length))
        (m + seg.to_lines.length) ws (i + 1)

/-- Embedding of `_apply_simplified_patch(original_content, diff)` (lines 183-263):
parse the stripped diff text into segments, apply them to the split
original lines, and join the result with `"\n"`. The report string
(success text plus rendered warnings) is returned as the structured
warning list. -/
def _apply_simplified_patch (original_content diff : String) :
    Except PatchError (String × List HintWarning) :=
  let original_lines := splitlines original_content
  let diff_lines := pySplit '\n' (pyStrip diff)
  let idxs := segmentStartIndices diff_lines
  if idxs.isEmpty then .error .formatError
  else
    match applySegments (segmentsFromIndices diff_lines idxs) original_lines 0 [] 0 with
    | .error e => .error e
    | .ok (new_lines, _, ws) => .ok (joinNL new_lines, ws)

/-- On-disk content of the target file after the `apply_diff` tool
(lines 291-306), given the content the tool read from it: the
`validateOk` flag tells whether `validate_virtual_path` succeeded (an
exception there is caught before any write); a patch exception is
likewise caught with nothing written; the new content is written back
only when the whole in-memory apply succeeded and `dry_run` is false. -/
def apply_diff_disk (validateOk : Bool) (original_content diff : String) (dry_run : Bool) : String :=
  if !validateOk then original_content
  else
    match _apply_simplified_patch original_content diff with
    | .error _ => original_content
    | .ok (new_content, _) => if dry_run then original_content else new_content

/-! Section: helper lemmas -/

theorem strEq_iff (a b : String) : strEq a b = true ↔ a = b := by
  unfold strEq
  rw [beq_iff_eq]
  constructor
  · intro h
    cases a; cases b
    exact congrArg String.mk (by simpa using h)
  · intro h
    rw [h]

theorem find?_range'_spec (p : Nat → Bool) :
    ∀ (n s m : Nat), (List.range' s n).find? p = some m →
      s ≤ m ∧ p m = true ∧ ∀ j, s ≤ j → j < m → p j = false := by
  intro n
  induction n with
  | zero =>
    intro s m h
    simp [List.range'] at h
  | succ k ih =>
    intro s m h
    rw [List.range'] at h
    by_cases hp : p s
    · rw [List.find?_cons_of_pos _ hp] at h
      cases h
      exact ⟨Nat.le_refl _, hp, fun j hj1 hj2 => absurd (Nat.lt_of_le_of_lt hj1 hj2) (Nat.lt_irrefl _)⟩
    · rw [List.find?_cons_of_neg _ hp] at h
      obtain ⟨h1, h2, h3⟩ := ih (s + 1) m h
      refine ⟨Nat.le_of_succ_le h1, h2, fun j hj1 hj2 => ?_⟩
      rcases Nat.eq_or_lt_of_le hj1 with hej | hlt
      · rw [← hej]
        exact Bool.of_not_eq_true hp
      · exact h3 j hlt hj2

theorem findWindow_spec (ls pat : List String) (start m : Nat)
    (h : findWindow ls pat start = some m) :
    start ≤ m ∧ sliceEq ls pat m = true ∧ ∀ j, start ≤ j → j < m → sliceEq ls pat j = false := by
  exact find?_range'_spec _ _ _ _ h

theorem segmentStartIndices_nil :
    ∀ (dl : List String) (k : Nat), (∀ l ∈ dl, pyStartsWith l "---" = false) →
      ((List.enumFrom k dl).filter (fun p => pyStartsWith p.2 "---")).map (fun p => p.1) = [] := by
  intro dl
  induction dl with
  | nil =>
    intro k _
    rfl
  | cons a t ih =>
    intro k h
    have ha : pyStartsWith a "---" = false := h a (List.mem_cons_self a t)
    have ht : ∀ l ∈ t, pyStartsWith l "---" = false := fun l hl => h l (List.mem_cons_of_mem a hl)
    simpa [List.enumFrom, List.filter, ha] using ih (k + 1) ht

/-! Section: the claims -/

/-- C2: if any segment of the patch fails to apply (format error or
apply error), the `apply_diff` tool leaves the on-disk file content
unchanged — the new content is written back only after the in-memory
application of every segment has succeeded, never partially. -/
theorem C2_error_leaves_disk_unchanged (validateOk : Bool) (content diff : String)
    (dry_run : Bool) (h : ∃ e, _apply_simplified_patch content diff = Except.error e) :
    apply_diff_disk validateOk content diff dry_run = content := by
  obtain ⟨e, he⟩ := h
  unfold apply_diff_disk
  cases validateOk <;> simp [he]

theorem C2_error_leaves_disk_unchanged_witness :
    _apply_simplified_patch "A\nB" "---\n-Q" = Except.error (PatchError.applyError 1) ∧
    apply_diff_disk true "A\nB" "---\n-Q" false = "A\nB" :=
  ⟨by rfl,
   C2_error_leaves_disk_unchanged true "A\nB" "---\n-Q" false
     ⟨PatchError.applyError 1, by rfl⟩⟩

/-- C9: a patch text none of whose (stripped, split) lines starts with
the `---` delimiter produces `PatchFormatError` (the `ValueError` of
line 197) before any segment is applied, for every file content. -/
theorem C9_zero_headers_format_error (content diff : String)
    (h : ∀ l ∈ pySplit '\n' (pyStrip diff), pyStartsWith l "---" = false) :
    _apply_simplified_patch content diff = Except.error PatchError.formatError := by
  have hidx : segmentStartIndices (pySplit '\n' (pyStrip diff)) = [] := by
    unfold segmentStartIndices
    exact segmentStartIndices_nil _ 0 h
  unfold _apply_simplified_patch
  simp [hidx]

theorem C9_zero_headers_format_error_witness :
    (∀ l ∈ pySplit '\n' (pyStrip "abc\n-x\n+y"), pyStartsWith l "---" = false) ∧
    _apply_simplified_patch "A\nB" "abc\n-x\n+y" = Except.error PatchError.formatError :=
  ⟨by decide, C9_zero_headers_format_error "A\nB" "abc\n-x\n+y" (by decide)⟩

/-- C7: the code does NOT strip a leading space from context lines — a
body line beginning with a single space is fed to both sequences with
the space kept (lines 215-222), so the space-prefixed context line of
the tool docstring example fails to match a file line without the
space. The claim (and the docstring example) expect the space prefix to
be removed. -/
theorem C7_context_space_kept :
    parseBody [" X"] = ([" X"], [" X"]) ∧
    _apply_simplified_patch "X" "---\n X" = Except.error (PatchError.applyError 1) ∧
    _apply_simplified_patch
      "Beneath the velvet cloak of night so deep,\nWhere stars like silver needles stitch the sky,"
      "--- ---\n-Beneath the velvet cloak of night so deep,\n+Under the velvet cloak of night so deep,\n Where stars like silver needles stitch the sky,"
      = Except.error (PatchError.applyError 1) :=
  ⟨by rfl, by rfl, by rfl⟩

/-- C6: segment search never rewinds before the cursor — every window
found by the scan is at or after the search start — and the two-segment
scenario (first segment rewrites the only `A`, second looks for `A`
again) fails with `PatchApplyError` naming segment 2. -/
theorem C6_no_rewind :
    (∀ ls pat start m, findWindow ls pat start = some m → start ≤ m) ∧
    _apply_simplified_patch "A\nB" "---\n-A\n+Z\n---\n-A\n+Q"
      = Except.error (PatchError.applyError 2) :=
  ⟨fun ls pat start m h => (findWindow_spec ls pat start m h).1, by rfl⟩

theorem C6_no_rewind_witness :
    findWindow ["B", "A"] ["A"] 1 = some 1 ∧ 1 ≤ 1 :=
  ⟨by rfl, C6_no_rewind.1 ["B", "A"] ["A"] 1 1 (by rfl)⟩

/-- C4: with a non-empty *from* sequence, a segment replaces the first
(lowest-index) window at or after the search start that equals the
*from* sequence line-for-line with the *to* sequence, and the cursor
becomes match start plus the *to* length; concretely, one segment
from=[B] to=[X, Y] with no hint on [A, B, C, D] yields
[A, X, Y, C, D] with cursor 3. -/
theorem C4_first_window_replaced :
    (∀ ls pat start m, findWindow ls pat start = some m →
      start ≤ m ∧ sliceEq ls pat m = true ∧ ∀ j, start ≤ j → j < m → sliceEq ls pat j = false) ∧
    (∀ (ls : List String) (cursor : Nat) (ws : List HintWarning) (i : Nat)
        (pat tos rest_segs : List _) (m : Nat), pat.isEmpty = false →
      findWindow ls pat cursor = some m →
      applySegments ({ start_line_gte := none, from_lines := pat, to_lines := tos } :: rest_segs)
          ls cursor ws i
        = applySegments rest_segs (ls.take m ++ tos ++ ls.drop (m + pat.length))
            (m + tos.length) ws (i + 1)) ∧
    applySegments [{ start_line_gte := none, from_lines := ["B"], to_lines := ["X", "Y"] }]
        ["A", "B", "C", "D"] 0 [] 0
      = Except.ok (["A", "X", "Y", "C", "D"], 3, []) := by
  refine ⟨findWindow_spec, ?_, by rfl⟩
  intro ls cursor ws i pat tos rest_segs m hpat hfound
  simp [applySegments, hpat, hfound]

theorem C4_first_window_replaced_witness :
    findWindow ["A", "B", "C", "D"] ["B"] 0 = some 1 ∧
    applySegments [{ start_line_gte := none, from_lines := ["B"], to_lines := ["X", "Y"] }]
        ["A", "B", "C", "D"] 0 [] 0
      = applySegments [] (["A", "B", "C", "D"].take 1 ++ ["X", "Y"] ++ ["A", "B", "C", "D"].drop 2)
          3 [] 1 :=
  ⟨by rfl,
   C4_first_window_replaced.2.1 ["A", "B", "C", "D"] 0 [] 0 ["B"] ["X", "Y"] [] 1
     (by rfl) (by rfl)⟩

/-- C5: a `line >= N` hint at or after cursor+1 moves the search start
to index N-1 with no warning; a hint before cursor+1 is ignored, the
search starts at the cursor, and a non-fatal warning naming the segment
and the hint is recorded. Concretely `line >= 3` at cursor 0 searches
from index 2, and `line >= 1` at cursor 3 is ignored with a warning and
searches from 3. -/
theorem C5_hint_semantics :
    (∀ (ls : List String) (cursor : Nat) (ws : List HintWarning) (i n : Nat)
        (pat tos rest_segs : List _), pat.isEmpty = false → n ≥ cursor + 1 →
      applySegments ({ start_line_gte := some n, from_lines := pat, to_lines := tos } :: rest_segs)
          ls cursor ws i
        = match findWindow ls pat (n - 1) with
          | none => Except.error (PatchError.applyError (i + 1))
          | some m => applySegments rest_segs (ls.take m ++ tos ++ ls.drop (m + pat.length))
              (m + tos.length) ws (i + 1)) ∧
    (∀ (ls : List String) (cursor : Nat) (ws : List HintWarning) (i n : Nat)
        (pat tos rest_segs : List _), pat.isEmpty = false → n < cursor + 1 →
      applySegments ({ start_line_gte := some n, from_lines := pat, to_lines := tos } :: rest_segs)
          ls cursor ws i
        = match findWindow ls pat cursor with
          | none => Except.error (PatchError.applyError (i + 1))
          | some m => applySegments rest_segs (ls.take m ++ tos ++ ls.drop (m + pat.length))
              (m + tos.length) (ws ++ [{ segment := i + 1, hint := n }]) (i + 1)) ∧
    applySegments [{ start_line_gte := some 3, from_lines := ["A"], to_lines := ["B"] }]
        ["A", "A", "A", "A"] 0 [] 0
      = Except.ok (["A", "A", "B", "A"], 3, []) ∧
    applySegments [{ start_line_gte := some 1, from_lines := ["A"], to_lines := ["B"] }]
        ["x", "y", "z", "A"] 3 [] 1
      = Except.ok (["x", "y", "z", "B"], 4, [{ segment := 2, hint := 1 }]) := by
  refine ⟨?_, ?_, by rfl, by rfl⟩
  · intro ls cursor ws i n pat tos rest_segs hpat hge
    rw [applySegments]
    simp only [hpat, if_pos hge, Bool.false_eq_true, if_false]
  · intro ls cursor ws i n pat tos rest_segs hpat hlt
    have hnge : ¬ n ≥ cursor + 1 := Nat.not_le_of_lt hlt
    rw [applySegments]
    simp only [hpat, if_neg hnge, Bool.false_eq_true, if_false]

theorem C5_hint_semantics_witness :
    ((["A"] : List String).isEmpty = false ∧ 3 ≥ 0 + 1) ∧
    applySegments [{ start_line_gte := some 3, from_lines := ["A"], to_lines := ["B"] }]
        ["A", "A", "A", "A"] 0 [] 0
      = match findWindow ["A", "A", "A", "A"] ["A"] 2 with
        | none => Except.error (PatchError.applyError 1)
        | some m => applySegments [] (["A", "A", "A", "A"].take m ++ ["B"]
            ++ ["A", "A", "A", "A"].drop (m + 1)) (m + 1) [] 1 :=
  ⟨⟨by rfl, by omega⟩,
   C5_hint_semantics.1 ["A", "A", "A", "A"] 0 [] 0 3 ["A"] ["B"] [] (by rfl) (by omega)⟩

/-- C10: a successful apply returns exactly the `"\n"`-join of the
patched line list (lines 190 and 263): the original content is split by
Python `splitlines`, so a trailing newline is dropped and every
`"\r\n"` or `"\r"` separator becomes `"\n"` even when no segment
changes a line — a successful apply is not byte-preserving on untouched
content. -/
theorem C10_join_of_patched_lines :
    (∀ content diff nc ws, _apply_simplified_patch content diff = Except.ok (nc, ws) →
      ∃ ls cursor,
        applySegments
            (segmentsFromIndices (pySplit '\n' (pyStrip diff))
              (segmentStartIndices (pySplit '\n' (pyStrip diff))))
            (splitlines content) 0 [] 0
          = Except.ok (ls, cursor, ws) ∧ nc = joinNL ls) ∧
    _apply_simplified_patch "A\r\nB\r\n" "---" = Except.ok ("A\nB", []) ∧
    _apply_simplified_patch "A\rB\n" "---" = Except.ok ("A\nB", []) ∧
    ("A\nB" = "A\r\nB\r\n" → False) := by
  refine ⟨?_, by rfl, by rfl, by decide⟩
  intro content diff nc ws h
  unfold _apply_simplified_patch at h
  by_cases hi : (segmentStartIndices (pySplit '\n' (pyStrip diff))).isEmpty = true
  · rw [if_pos hi] at h
    exact absurd h (by simp)
  · rw [if_neg hi] at h
    cases happ : applySegments
        (segmentsFromIndices (pySplit '\n' (pyStrip diff))
          (segmentStartIndices (pySplit '\n' (pyStrip diff))))
        (splitlines content) 0 [] 0 with
    | error e =>
      rw [happ] at h
      exact absurd h (by simp)
    | ok t =>
      rw [happ] at h
      obtain ⟨ls, cursor, ws2⟩ := t
      simp only [Except.ok.injEq, Prod.mk.injEq] at h
      exact ⟨ls, cursor, by rw [h.2], h.1.symm⟩

theorem C10_join_of_patched_lines_witness :
    _apply_simplified_patch "A" "---" = Except.ok ("A", []) ∧
    (∃ ls cursor,
      applySegments
          (segmentsFromIndices (pySplit '\n' (pyStrip "---"))
            (segmentStartIndices (pySplit '\n' (pyStrip "---"))))
          (splitlines "A") 0 [] 0
        = Except.ok (ls, cursor, []) ∧ "A" = joinNL ls) :=
  ⟨by rfl, C10_join_of_patched_lines.1 "A" "---" "A" [] (by rfl)⟩

/-- A concrete registry over the single allowed directory `/real/a`. -/
def regA : Registry := set_allowed_dirs "/h" "/" noUsers ["/real/a"]

/-- The filesystem as CPython `os.path.realpath` with its default
`strict=False` actually behaves: `realpath` is total — it never raises
`FileNotFoundError`, and with no symlinks present it returns its
(already normalized) argument — while on disk only the allowed
directory `/real/a` itself exists, so the candidate below and its
parent are both missing. -/
def fsStrictFalse : FS where
  realpath := fun p => some p
  fileExists := fun p => strEq p "/real/a"

/-- C3: the claim describes the except branch of lines 50-56, but
CPython `os.path.realpath` with its default `strict=False` (the call
at line 46) never raises `FileNotFoundError`, so that branch — with
its explicit `Parent directory not found` error — is dead code: under
any total `realpath` the function can never fail with
`ParentNotFound`, and on the concrete failing input (candidate
`/data/a/missing/new.txt` whose parent `/real/a/missing` does not
exist) the program returns the resolved candidate via line 48 instead
of raising `ParentNotFound` as the claim requires. -/
theorem C3_parent_not_found_unreachable :
    (∀ reg cwd fs vp, (∀ p, fs.realpath p ≠ none) →
      validate_virtual_path reg cwd fs vp ≠ Except.error PathError.parentNotFound) ∧
    fsStrictFalse.fileExists "/real/a/missing" = false ∧
    validate_virtual_path regA "/" fsStrictFalse "/data/a/missing/new.txt"
      = Except.ok "/real/a/missing/new.txt" := by
  refine ⟨?_, by rfl, by rfl⟩
  intro reg cwd fs vp htotal
  unfold validate_virtual_path
  cases htr : toRealPath reg cwd vp with
  | error e =>
    unfold toRealPath at htr
    cases hfind : reg.virtual_to_real.find? (fun p => matchesAlias vp p.1) with
    | none =>
      rw [hfind] at htr
      cases htr
      simp
    | some q =>
      rw [hfind] at htr
      exact absurd htr (by simp)
  | ok real_path =>
    simp only [checkRealPath]
    cases hrp : fs.realpath real_path with
    | none => exact absurd hrp (htotal real_path)
    | some r =>
      by_cases hin : isWithinAllowed reg.allowed_real_dirs r = true
      · simp [hin]
      · simp [hin]

theorem C3_parent_not_found_unreachable_witness :
    (∀ p, fsStrictFalse.realpath p ≠ none) ∧
    validate_virtual_path regA "/" fsStrictFalse "/data/a/missing/new.txt"
      ≠ Except.error PathError.parentNotFound :=
  ⟨fun p => by simp [fsStrictFalse],
   C3_parent_not_found_unreachable.1 regA "/" fsStrictFalse "/data/a/missing/new.txt"
     (fun p => by simp [fsStrictFalse])⟩

/-- C1: soundness of the sandbox (lines 34-56): a returned
`ResolvedPath` is either the fully symlink-resolved form of the
candidate and lies within some allowed directory (equal to it or a
path-separator-delimited descendant), or the candidate does not exist
and the (unresolved) candidate is returned with its resolved parent
existing inside an allowed directory; whenever the resolved candidate
or the resolved parent lands outside every allowed directory, the
function raises the `PermissionError` (`AccessDenied`) of lines 49/56,
so no returned path ever lies outside every allowed directory. -/
theorem C1_sandbox_soundness :
    (∀ reg cwd fs vp rp, validate_virtual_path reg cwd fs vp = Except.ok rp →
      ∃ real_path, toRealPath reg cwd vp = Except.ok real_path ∧
        ((fs.realpath real_path = some rp ∧ isWithinAllowed reg.allowed_real_dirs rp = true) ∨
         (fs.realpath real_path = none ∧ rp = real_path ∧
          ∃ par, fs.realpath (dirname real_path) = some par ∧ fs.fileExists par = true ∧
            isWithinAllowed reg.allowed_real_dirs par = true))) ∧
    (∀ reg cwd fs vp real_path r, toRealPath reg cwd vp = Except.ok real_path →
      fs.realpath real_path = some r →
      isWithinAllowed reg.allowed_real_dirs r = false →
      validate_virtual_path reg cwd fs vp = Except.error PathError.accessDenied) ∧
    (∀ reg cwd fs vp real_path par, toRealPath reg cwd vp = Except.ok real_path →
      fs.realpath real_path = none →
      fs.realpath (dirname real_path) = some par →
      fs.fileExists par = true →
      isWithinAllowed reg.allowed_real_dirs par = false →
      validate_virtual_path reg cwd fs vp = Except.error PathError.accessDenied) := by
  refine ⟨?_, ?_, ?_⟩
  · intro reg cwd fs vp rp h
    unfold validate_virtual_path at h
    cases htr : toRealPath reg cwd vp with
    | error e =>
      rw [htr] at h
      exact absurd h (by simp)
    | ok real_path =>
      rw [htr] at h
      refine ⟨real_path, rfl, ?_⟩
      simp only [checkRealPath] at h
      cases hrp : fs.realpath real_path with
      | some resolved =>
        simp only [hrp] at h
        by_cases hin : isWithinAllowed reg.allowed_real_dirs resolved = true
        · rw [if_pos hin] at h
          cases h
          exact Or.inl ⟨rfl, hin⟩
        · rw [if_neg hin] at h
          exact absurd h (by simp)
      | none =>
        simp only [hrp] at h
        cases hpar : fs.realpath (dirname real_path) with
        | none =>
          simp only [hpar] at h
          exact absurd h (by simp)
        | some par =>
          simp only [hpar] at h
          cases hex : fs.fileExists par with
          | false =>
            simp only [hex, Bool.not_false, if_true] at h
            exact absurd h (by simp)
          | true =>
            simp only [hex, Bool.not_true, Bool.false_eq_true, if_false] at h
            by_cases hin : isWithinAllowed reg.allowed_real_dirs par = true
            · rw [if_pos hin] at h
              cases h
              exact Or.inr ⟨rfl, rfl, par, rfl, hex, hin⟩
            · rw [if_neg hin] at h
              exact absurd h (by simp)
  · intro reg cwd fs vp real_path r htr hrp hout
    simp only [validate_virtual_path, htr, checkRealPath, hrp, hout, Bool.false_eq_true, if_false]
  · intro reg cwd fs vp real_path par htr hrp hpar hex hout
    simp only [validate_virtual_path, htr, checkRealPath, hrp, hpar, hex, hout,
      Bool.not_true, Bool.false_eq_true, if_false]

/-- A concrete filesystem in which `/real/a/evil` is a symlink whose
target resolves to `/outside/secret`. -/
def fsEvil : FS where
  realpath := fun p =>
    if strEq p "/real/a/evil" then some "/outside/secret"
    else if strEq p "/real/a" then some "/real/a" else none
  fileExists := fun p => strEq p "/real/a" || strEq p "/real/a/evil"

/-- The two alias maps invert each other: following one and then the
other returns to the entry one started from. -/
def mutuallyInverse (m1 m2 : List (String × String)) : Prop :=
  (∀ p ∈ m1, dictLookup m2 p.2 = some p.1) ∧ (∀ p ∈ m2, dictLookup m1 p.2 = some p.1)

theorem char_toNat_ofNat_valid (n : Nat) (h : n.isValidChar) : (Char.ofNat n).toNat = n := by
  simp only [Char.ofNat, h, dif_pos, Char.ofNatAux, Char.toNat, UInt32.toNat]
  simp

theorem pyChr_injOn (i j : Nat) (hi : i < 1114112) (hj : j < 1114112)
    (h : pyChr i = pyChr j) : i = j := by
  unfold pyChr at h
  by_cases hvi : i.isValidChar <;> by_cases hvj : j.isValidChar
  · rw [if_pos hvi, if_pos hvj] at h
    injection h with hc _
    have := congrArg Char.toNat hc
    rw [char_toNat_ofNat_valid _ hvi, char_toNat_ofNat_valid _ hvj] at this
    exact this
  · rw [if_pos hvi, if_neg hvj] at h
    exact absurd h (by simp)
  · rw [if_neg hvi, if_pos hvj] at h
    exact absurd h (by simp)
  · rw [if_neg hvi, if_neg hvj] at h
    have hib : 0xd800 ≤ i ∧ i < 0xe000 := by
      unfold Nat.isValidChar at hvi
      omega
    have hjb : 0xd800 ≤ j ∧ j < 0xe000 := by
      unfold Nat.isValidChar at hvj
      omega
    simp only [List.cons.injEq, and_true] at h
    have hc := h.2
    have hvi2 : (0xe000 + (i - 0xd800)).isValidChar := Or.inr ⟨by omega, by omega⟩
    have hvj2 : (0xe000 + (j - 0xd800)).isValidChar := Or.inr ⟨by omega, by omega⟩
    have := congrArg Char.toNat hc
    rw [char_toNat_ofNat_valid _ hvi2, char_toNat_ofNat_valid _ hvj2] at this
    omega

theorem aliasFor_injOn (i j : Nat) (hi : 97 + i < 1114112) (hj : 97 + j < 1114112)
    (h : aliasFor i = aliasFor j) : i = j := by
  have hd := congrArg String.data h
  simp only [aliasFor, String.data_append] at hd
  have hp : pyChr (97 + i) = pyChr (97 + j) := List.append_cancel_left hd
  have := pyChr_injOn (97 + i) (97 + j) hi hj hp
  omega

theorem dictInsert_of_fresh (m : List (String × String)) (k v : String)
    (h : ∀ p ∈ m, p.1 ≠ k) : dictInsert m k v = m ++ [(k, v)] := by
  have hany : m.any (fun p => strEq p.1 k) = false := by
    rw [List.any_eq_false]
    intro p hp
    simp only [Bool.not_eq_true]
    rw [← Bool.not_eq_true, strEq_iff]
    exact h p hp
  simp [dictInsert, hany]

theorem pythonDict_app (ps : List (String × String)) :
    ∀ acc, (((acc ++ ps).map Prod.fst).Nodup) →
      ps.foldl (fun m p => dictInsert m p.1 p.2) acc = acc ++ ps := by
  induction ps with
  | nil =>
    intro acc _
    simp
  | cons q t ih =>
    intro acc hnd
    have hq : ∀ p ∈ acc, p.1 ≠ q.1 := by
      intro p hp heq
      rw [List.map_append, List.nodup_append] at hnd
      exact hnd.2.2 (List.mem_map_of_mem _ hp) (by simp [heq])
    rw [List.foldl_cons, dictInsert_of_fresh acc q.1 q.2 hq]
    have hre : (acc ++ [(q.1, q.2)]) ++ t = acc ++ q :: t := by simp
    rw [ih (acc ++ [(q.1, q.2)]) (by rw [hre]; exact hnd)]
    simp

/-- Applying `pythonDict` to a pair list with pairwise distinct keys gives that
list itself. -/
theorem pythonDict_of_nodup (ps : List (String × String))
    (hnd : (ps.map Prod.fst).Nodup) : pythonDict ps = ps := by
  unfold pythonDict
  have := pythonDict_app ps [] (by simpa using hnd)
  simpa using this

theorem dictLookup_of_mem :
    ∀ (m : List (String × String)) (k v : String),
      (m.map Prod.fst).Nodup → (k, v) ∈ m → dictLookup m k = some v := by
  intro m
  induction m with
  | nil =>
    intro k v _ hmem
    cases hmem
  | cons q t ih =>
    intro k v hnd hmem
    rcases List.mem_cons.mp hmem with heq | hmem2
    · rw [← heq]
      unfold dictLookup
      rw [List.find?_cons_of_pos]
      · rfl
      · simp [strEq_iff]
    · have hk : k ∈ t.map Prod.fst := by
        have : (k, v).1 ∈ t.map Prod.fst := List.mem_map_of_mem _ hmem2
        simpa using this
      have hq1 : q.1 ∉ t.map Prod.fst := by
        rw [List.map_cons, List.nodup_cons] at hnd
        exact hnd.1
      have hne : (fun p => strEq p.1 k) q = false := by
        simp only
        rw [← Bool.not_eq_true, strEq_iff]
        intro heq
        exact hq1 (heq ▸ hk)
      unfold dictLookup
      rw [List.find?_cons_of_neg _ (by simp [hne])]
      exact ih k v (by rw [List.map_cons, List.nodup_cons] at hnd; exact hnd.2) hmem2

/-- C8 counterexample: registering the same directory twice gives it
two aliases while the directory-to-alias dict keeps only the later
one, so for the input `[/x, /x]` the two mappings are not mutually
inverse bijections as the claim asserts for every input sequence. -/
theorem C8_counterexample_duplicate_dirs :
    (set_allowed_dirs "/h" "/c" noUsers ["/x", "/x"]).virtual_to_real
      = [("/data/a", "/x"), ("/data/b", "/x")] ∧
    (set_allowed_dirs "/h" "/c" noUsers ["/x", "/x"]).real_to_virtual = [("/x", "/data/b")] ∧
    ¬ mutuallyInverse (set_allowed_dirs "/h" "/c" noUsers ["/x", "/x"]).virtual_to_real
        (set_allowed_dirs "/h" "/c" noUsers ["/x", "/x"]).real_to_virtual := by
  refine ⟨by rfl, by rfl, ?_⟩
  intro hmi
  have h1 := hmi.1 ("/data/a", "/x") (by rw [show (set_allowed_dirs "/h" "/c" noUsers ["/x", "/x"]).virtual_to_real = [("/data/a", "/x"), ("/data/b", "/x")] from rfl]; exact List.mem_cons_self _ _)
  have h2 : dictLookup (set_allowed_dirs "/h" "/c" noUsers ["/x", "/x"]).real_to_virtual "/x"
      = some "/data/b" := by rfl
  rw [h2] at h1
  simp at h1

/-- C8 amended: for every non-empty input sequence — of length within
the domain of Python `chr`, which fails beyond code point 0x10FFFF —
whose normalized (`expanduser` with the password database, then
`abspath`) directories are pairwise distinct, `set_allowed_dirs`
assigns the alias `/data/<chr(97+i)>` to the i-th directory in input
order, and the two alias mappings are mutually inverse bijections
between allowed directories and virtual aliases. -/
theorem C8_alias_maps_bijective (home cwd : String) (users : String → Option String)
    (real_dirs : List String) (_hne : real_dirs ≠ [])
    (hnodup : (real_dirs.map (fun d => abspath cwd (expanduser home users d))).Nodup)
    (hsize : real_dirs.length + 97 ≤ 1114112) :
    (set_allowed_dirs home cwd users real_dirs).virtual_to_real
      = (real_dirs.map (fun d => abspath cwd (expanduser home users d))).enum.map
          (fun p => (aliasFor p.1, p.2)) ∧
    mutuallyInverse (set_allowed_dirs home cwd users real_dirs).virtual_to_real
      (set_allowed_dirs home cwd users real_dirs).real_to_virtual := by
  set dirs := real_dirs.map (fun d => abspath cwd (expanduser home users d)) with hdirs
  set pairs := dirs.enum.map (fun p => (aliasFor p.1, p.2)) with hpairs
  have hlen : dirs.length = real_dirs.length := by rw [hdirs, List.length_map]
  have hkeys : pairs.map Prod.fst = (List.range' 0 dirs.length).map aliasFor := by
    rw [hpairs, List.map_map]
    have : (Prod.fst ∘ fun p : Nat × String => (aliasFor p.1, p.2))
        = aliasFor ∘ Prod.fst := rfl
    rw [this, ← List.map_map, List.enum, List.enumFrom_map_fst]
  have hvals : pairs.map Prod.snd = dirs := by
    rw [hpairs, List.map_map]
    have : (Prod.snd ∘ fun p : Nat × String => (aliasFor p.1, p.2)) = Prod.snd := rfl
    rw [this, List.enum, List.enumFrom_map_snd]
  have hkeysnd : (pairs.map Prod.fst).Nodup := by
    rw [hkeys]
    refine List.Nodup.map_on ?_ (List.nodup_range' 0 dirs.length)
    intro i hi j hj hij
    rw [List.mem_range'_1] at hi hj
    exact aliasFor_injOn i j (by omega) (by omega) hij
  have hv2r : (set_allowed_dirs home cwd users real_dirs).virtual_to_real = pairs := by
    simp only [set_allowed_dirs]
    exact pythonDict_of_nodup pairs hkeysnd
  have hswapkeys : ((pairs.map (fun p => (p.2, p.1))).map Prod.fst).Nodup := by
    rw [List.map_map]
    have : (Prod.fst ∘ fun p : String × String => (p.2, p.1)) = Prod.snd := rfl
    rw [this, hvals]
    exact hnodup
  have hr2v : (set_allowed_dirs home cwd users real_dirs).real_to_virtual
      = pairs.map (fun p => (p.2, p.1)) := by
    simp only [set_allowed_dirs]
    rw [show pythonDict (dirs.enum.map fun p => (aliasFor p.1, p.2)) = pairs from
      pythonDict_of_nodup pairs hkeysnd]
    exact pythonDict_of_nodup _ hswapkeys
  refine ⟨hv2r, ?_, ?_⟩
  · intro p hp
    rw [hv2r] at hp
    rw [hr2v]
    exact dictLookup_of_mem _ p.2 p.1 hswapkeys (List.mem_map_of_mem _ hp)
  · intro q hq
    rw [hr2v] at hq
    rw [hv2r]
    obtain ⟨p, hp, hqe⟩ := List.mem_map.mp hq
    rw [← hqe]
    exact dictLookup_of_mem _ p.1 p.2 hkeysnd hp

theorem C8_alias_maps_bijective_witness :
    (["/x", "/y"] ≠ ([] : List String) ∧
      ((["/x", "/y"] : List String).map (fun d => abspath "/c" (expanduser "/h" noUsers d))).Nodup ∧
      (["/x", "/y"] : List String).length + 97 ≤ 1114112) ∧
    ((set_allowed_dirs "/h" "/c" noUsers ["/x", "/y"]).virtual_to_real
      = ((["/x", "/y"] : List String).map (fun d => abspath "/c" (expanduser "/h" noUsers d))).enum.map
          (fun p => (aliasFor p.1, p.2)) ∧
    mutuallyInverse (set_allowed_dirs "/h" "/c" noUsers ["/x", "/y"]).virtual_to_real
      (set_allowed_dirs "/h" "/c" noUsers ["/x", "/y"]).real_to_virtual) :=
  ⟨⟨by decide, by decide, by decide⟩,
   C8_alias_maps_bijective "/h" "/c" noUsers ["/x", "/y"] (by decide) (by decide) (by decide)⟩

theorem C1_sandbox_soundness_witness :
    toRealPath regA "/" "/data/a/evil" = Except.ok "/real/a/evil" ∧
    fsEvil.realpath "/real/a/evil" = some "/outside/secret" ∧
    isWithinAllowed regA.allowed_real_dirs "/outside/secret" = false ∧
    validate_virtual_path regA "/" fsEvil "/data/a/evil" = Except.error PathError.accessDenied :=
  ⟨by rfl, by rfl, by rfl,
   C1_sandbox_soundness.2.1 regA "/" fsEvil "/data/a/evil" "/real/a/evil" "/outside/secret"
     (by rfl) (by rfl) (by rfl)⟩

end GptJs
